import Mathlib

/-!
Shallow embedding of the Biznesinfo website-backfill scripts
(`scripts/verify_backfill_websites_from_ibiz.py` and
`scripts/rewrite_company_exports.py`).

Python strings are modelled as lists of Unicode code points (`List Nat`);
`pyS` converts a Lean string literal to that representation.  Python `None`
inputs are modelled with `Option`; a Python function that can raise is
modelled as returning `Option` (`none` = exception).
-/

/-- Python string model: a list of Unicode code points. -/
abbrev Str : Type := List Nat

/-- Code-point list of a Lean string literal. -/
def pyS (s : String) : Str := s.toList.map Char.toNat

/-- Whitespace code points recognised by Python `str.strip` / regex `\s`
(space, tab, newline, vertical tab, form feed, carriage return). -/
def isSpaceCp (n : Nat) : Bool := decide (n = 32 ∨ n = 9 ∨ n = 10 ∨ n = 11 ∨ n = 12 ∨ n = 13)

/-- ASCII decimal digit code points, modelling `\d` of the source's regexes. -/
def isDigitCp (n : Nat) : Bool := decide (48 ≤ n ∧ n ≤ 57)

/-- Lower-casing of one code point (ASCII model of `str.lower` / `str.casefold`). -/
def lowerCp (n : Nat) : Nat := if 65 ≤ n ∧ n ≤ 90 then n + 32 else n

/-- Lower-casing of a whole string. -/
def lowerStr (s : Str) : Str := s.map lowerCp

/-- Python `str.strip`: drop leading and trailing whitespace. -/
def stripS (s : Str) : Str := (s.dropWhile isSpaceCp).rdropWhile isSpaceCp

/-- Helper for `squeezeWs`: `prev` records whether the previous character was
part of a whitespace run, so that each maximal run contributes one space. -/
def squeezeAux : Bool → Str → Str
  | _, [] => []
  | prev, c :: rest =>
    if isSpaceCp c then (if prev then squeezeAux true rest else 32 :: squeezeAux true rest)
    else c :: squeezeAux false rest

/-- Collapse every maximal run of whitespace into one space, modelling
`re.sub(r"\s+", " ", s)`. -/
def squeezeWs (s : Str) : Str := squeezeAux false s

/-- Model of `norm_space` (verify script, lines 33-34): strip, then collapse
whitespace runs.  A `none` argument models Python `None` (`value or ""`). -/
def norm_space (value : Option Str) : Str := squeezeWs (stripS (value.getD []))

/-- Model of `norm_text` (lines 37-38): `norm_space(value).casefold()`. -/
def norm_text (value : Option Str) : Str := lowerStr (norm_space value)

/-- Model of `normalize_phone` (lines 41-42):
`"".join(re.findall(r"\d+", raw or ""))`, i.e. keep exactly the digit
characters in order. -/
def normalize_phone (raw : Option Str) : Str := (raw.getD []).filter isDigitCp

/-- Model of `normalize_email` (lines 45-46): `(raw or "").strip().casefold()`. -/
def normalize_email (raw : Option Str) : Str := lowerStr (stripS (raw.getD []))

/-- Model of `normalize_unp` (lines 49-50): keep exactly the digit characters. -/
def normalize_unp (raw : Option Str) : Str := (raw.getD []).filter isDigitCp

/-- Loop body of `uniq_keep_order` (lines 53-64): strip each value, skip empty
and already-seen values, keep first-seen order.  `seen` is the accumulator set. -/
def uniqAux (seen : List Str) : List Str → List Str
  | [] => []
  | v :: rest =>
    if stripS v = [] then uniqAux seen rest
    else if stripS v ∈ seen then uniqAux seen rest
    else stripS v :: uniqAux (stripS v :: seen) rest

/-- Model of `uniq_keep_order` (lines 53-64). -/
def uniq_keep_order (values : List Str) : List Str := uniqAux [] values

/-- Loop of `normalize_websites` (lines 84-94): strip, drop empties and
`mailto:`/`tel:` values, prefix `https://` when no `http(s)://` scheme is
present (the `re.match(r"^https?://", s, re.IGNORECASE)` test). -/
def nwLoop : List Str → List Str
  | [] => []
  | raw :: rest =>
    if stripS raw = [] then nwLoop rest
    else if (pyS ("mailto:")).isPrefixOf (lowerStr (stripS raw))
        || (pyS ("tel:")).isPrefixOf (lowerStr (stripS raw)) then
      nwLoop rest
    else if (pyS ("http://")).isPrefixOf (lowerStr (stripS raw))
        || (pyS ("https://")).isPrefixOf (lowerStr (stripS raw)) then
      stripS raw :: nwLoop rest
    else (pyS ("https://") ++ stripS raw) :: nwLoop rest

/-- Model of `normalize_websites` (lines 84-95). -/
def normalize_websites (values : List Str) : List Str := uniq_keep_order (nwLoop values)

/-- Model of the constant `IMPORTED_SOURCE_ID_PREFIX = "biznesinfo-"` (line 25). -/
def IMPORTED_SOURCE_ID_TOKEN : Str := pyS ("biznesinfo-")

/-- Model of `source_prefix` (lines 98-104): classify a source id as
imported (`biznesinfo-` lead), all-digits, or other. -/
def source_prefix_kind (source_id : Option Str) : Str :=
  let sid := stripS (source_id.getD [])
  if IMPORTED_SOURCE_ID_TOKEN.isPrefixOf sid then IMPORTED_SOURCE_ID_TOKEN
  else if decide (sid ≠ []) && sid.all isDigitCp then pyS ("digits")
  else pyS ("other")

/-- Invariant satisfied by every element produced by the `normalize_websites`
loop: non-empty, strip-fixed, not a `mailto:`/`tel:` value, and carrying an
`http(s)://` scheme. -/
def goodSite (y : Str) : Prop :=
  y ≠ [] ∧ stripS y = y ∧
  ((pyS ("mailto:")).isPrefixOf (lowerStr y) || (pyS ("tel:")).isPrefixOf (lowerStr y)) = false ∧
  ((pyS ("http://")).isPrefixOf (lowerStr y) || (pyS ("https://")).isPrefixOf (lowerStr y)) = true

/-! ### The match decider (verify script, lines 26 and 107-285) -/

/-- Model of `STRONG_EVIDENCE = {"direct_source_id", "phone", "email", "unp"}`
(line 26).  In the spec's vocabulary these tags are `direct_id`, `phone`,
`email`, `tax_id`; `name_addr` is the spec's `name_address`. -/
def STRONG_EVIDENCE : Finset Str :=
  {pyS ("direct_source_id"), pyS ("phone"), pyS ("email"), pyS ("unp")}

/-- Model of the `MatchDecision` dataclass (lines 118-126).  The candidate
dictionary is an association list in insertion order with distinct keys. -/
structure MatchDecision where
  source_id : Str
  name : Str
  address : Str
  source_prefix_kind : Str
  evidence_by_candidate : List (Str × Finset Str)
  match_type : Str
  auto_candidate : Option Str

/-- Model of `decide_match` (lines 234-285).  `candidates.headD` models
`next(iter(candidates.keys()))` in the exactly-one-candidate branch. -/
def decide_match (source_id name address : Str) (candidates : List (Str × Finset Str))
    (allow_weak_name_address : Bool) : MatchDecision :=
  if candidates = [] then
    { source_id := source_id, name := name, address := address,
      source_prefix_kind := source_prefix_kind (some source_id),
      evidence_by_candidate := [], match_type := pyS ("no_match"), auto_candidate := none }
  else if 1 < candidates.length then
    { source_id := source_id, name := name, address := address,
      source_prefix_kind := source_prefix_kind (some source_id),
      evidence_by_candidate := candidates, match_type := pyS ("ambiguous"),
      auto_candidate := none }
  else if ((candidates.headD ([], ∅)).2 ∩ STRONG_EVIDENCE).Nonempty then
    { source_id := source_id, name := name, address := address,
      source_prefix_kind := source_prefix_kind (some source_id),
      evidence_by_candidate := candidates, match_type := pyS ("auto"),
      auto_candidate := some (candidates.headD ([], ∅)).1 }
  else if allow_weak_name_address = true ∧ (candidates.headD ([], ∅)).2 = {pyS ("name_addr")} then
    { source_id := source_id, name := name, address := address,
      source_prefix_kind := source_prefix_kind (some source_id),
      evidence_by_candidate := candidates, match_type := pyS ("auto_weak_name_addr"),
      auto_candidate := some (candidates.headD ([], ∅)).1 }
  else
    { source_id := source_id, name := name, address := address,
      source_prefix_kind := source_prefix_kind (some source_id),
      evidence_by_candidate := candidates, match_type := pyS ("weak_unique"),
      auto_candidate := none }

/-! ### The secondary index (verify script, lines 107-115 and 170-189) -/

/-- Model of the `IbizCompany` dataclass (lines 107-115): a loaded secondary
record with normalized field values. -/
structure IbizCompany where
  subdomain : Str
  name : Str
  address : Str
  unp : Str
  phones : List Str
  emails : List Str
  websites : List Str
deriving DecidableEq

/-- Model of `defaultdict(set).add`: add `v` to the identifier set stored
under key `k` (sets are kept as first-insertion-ordered duplicate-free
lists). -/
def idxAdd (m : Str → List Str) (k : Str) (v : Str) : Str → List Str :=
  fun q => if q = k then (if v ∈ m k then m k else m k ++ [v]) else m q

/-- The empty index. -/
def emptyIdx : Str → List Str := fun _ => []

/-- Phone index loop of `build_ibiz_indexes` (lines 178-180). -/
def build_by_phone (companies : List (Str × IbizCompany)) : Str → List Str :=
  companies.foldl (fun m p => p.2.phones.foldl (fun m2 ph => idxAdd m2 ph p.1) m) emptyIdx

/-- Email index loop of `build_ibiz_indexes` (lines 181-182). -/
def build_by_email (companies : List (Str × IbizCompany)) : Str → List Str :=
  companies.foldl (fun m p => p.2.emails.foldl (fun m2 em => idxAdd m2 em p.1) m) emptyIdx

/-- Tax-id index of `build_ibiz_indexes` (lines 183-184): indexed only when
the stored `unp` has length at least 6. -/
def build_by_unp (companies : List (Str × IbizCompany)) : Str → List Str :=
  companies.foldl (fun m p => if 6 ≤ p.2.unp.length then idxAdd m p.2.unp p.1 else m) emptyIdx

/-- The composite `name||address` key (lines 185-187). -/
def name_addr_key (name address : Str) : Str :=
  norm_text (some name) ++ pyS ("||") ++ norm_text (some address)

/-- Name-address index of `build_ibiz_indexes` (lines 185-187): indexed only
when the composite key differs from the degenerate `"||"`. -/
def build_by_name_addr (companies : List (Str × IbizCompany)) : Str → List Str :=
  companies.foldl
    (fun m p =>
      if name_addr_key p.2.name p.2.address ≠ pyS ("||") then
        idxAdd m (name_addr_key p.2.name p.2.address) p.1
      else m)
    emptyIdx

/-- Model of `build_ibiz_indexes` (lines 170-189).  The source fills the four
`defaultdict`s in one loop over `companies.items()`; since the four maps are
independent this is split into four folds. -/
def build_ibiz_indexes (companies : List (Str × IbizCompany)) :
    (Str → List Str) × (Str → List Str) × (Str → List Str) × (Str → List Str) :=
  (build_by_phone companies, build_by_email companies,
   build_by_unp companies, build_by_name_addr companies)

/-! ### The decision aggregator (verify script, lines 465-477) -/

/-- Python truthiness of an optional string (`if decision.auto_candidate:`):
`None` and the empty string are falsy. -/
def optTruthy (o : Option Str) : Bool :=
  match o with
  | none => false
  | some s => decide (s ≠ [])

/-- Model of the `auto_matches` aggregation loop in `main` (lines 465-477):
iterate the decisions in order and assign
`auto_matches[decision.source_id] = decision.auto_candidate` whenever
`decision.auto_candidate` is truthy.  The dictionary is modelled as a
function to `Option Str` (`none` = key absent). -/
def build_auto_matches (decisions : List MatchDecision) : Str → Option Str :=
  decisions.foldl
    (fun m d =>
      if optTruthy d.auto_candidate then
        (fun q => if q = d.source_id then d.auto_candidate else m q)
      else m)
    (fun _ => none)

/-! ### The candidate collector (verify script, lines 192-231) -/

/-- First-match association-list lookup, modelling Python `dict` lookup
(parsed dictionaries have unique keys). -/
def alookup {β : Type} : List (Str × β) → Str → Option β
  | [], _ => none
  | (k2, v) :: rest, k => if k = k2 then some v else alookup rest k

/-- Model of the fields of a query record (a parsed `companies.jsonl` row)
read by `collect_candidates`; an absent field is `none` (`company.get(...)`),
and absent lists are `[]` (`... or []`). -/
structure QueryRecord where
  source_id : Option Str
  phones : List Str
  emails : List Str
  unp : Option Str
  name : Option Str
  address : Option Str

/-- Model of `candidates[subdomain].add(tag)` on `defaultdict(set)` (used in
lines 201-229): keys keep dictionary insertion order. -/
def addTag (m : List (Str × Finset Str)) (key : Str) (tag : Str) : List (Str × Finset Str) :=
  if key ∈ m.map Prod.fst then
    m.map (fun p => if p.1 = key then (p.1, insert tag p.2) else p)
  else m ++ [(key, {tag})]

/-- Model of `collect_candidates` (lines 192-231): the four index probes plus
the direct-identifier check accumulate evidence tags per candidate. -/
def collect_candidates (company : QueryRecord) (ibiz_companies : List (Str × IbizCompany))
    (by_phone by_email by_unp by_name_addr : Str → List Str) : List (Str × Finset Str) :=
  let sid := stripS (company.source_id.getD [])
  let c0 : List (Str × Finset Str) :=
    if sid ≠ [] ∧ (alookup ibiz_companies sid).isSome then
      addTag [] sid (pyS ("direct_source_id"))
    else []
  let c1 := company.phones.foldl
    (fun m raw_phone =>
      if (normalize_phone (some raw_phone)).length < 9 then m
      else (by_phone (normalize_phone (some raw_phone))).foldl
        (fun m2 sd => addTag m2 sd (pyS ("phone"))) m)
    c0
  let c2 := company.emails.foldl
    (fun m raw_email =>
      if normalize_email (some raw_email) = [] then m
      else (by_email (normalize_email (some raw_email))).foldl
        (fun m2 sd => addTag m2 sd (pyS ("email"))) m)
    c1
  let c3 :=
    if 6 ≤ (normalize_unp company.unp).length then
      (by_unp (normalize_unp company.unp)).foldl (fun m2 sd => addTag m2 sd (pyS ("unp"))) c2
    else c2
  if name_addr_key (company.name.getD []) (company.address.getD []) ≠ pyS ("||") then
    (by_name_addr (name_addr_key (company.name.getD []) (company.address.getD []))).foldl
      (fun m2 sd => addTag m2 sd (pyS ("name_addr"))) c3
  else c3

/-- The secondary record of the C7 scenario, with its fields normalized the
way `load_ibiz_companies` (lines 145-166) normalizes a raw row with
`subdomain "A1"`, `phones ["+375 29 1234567"]`, `websites ["example.by"]`
and empty name, address, unp and emails. -/
def c7company : IbizCompany :=
  { subdomain := pyS ("A1"),
    name := norm_space (some []),
    address := norm_space (some []),
    unp := normalize_unp (some []),
    phones := uniq_keep_order
      ((([pyS ("+375 29 1234567")]).map (fun x => normalize_phone (some x))).filter
        (fun p => decide (9 ≤ p.length))),
    emails := uniq_keep_order
      ((([] : List Str).map (fun x => normalize_email (some x))).filter
        (fun e => decide (e ≠ []))),
    websites := normalize_websites [pyS ("example.by")] }

/-- The C7 secondary dataset: exactly one record, keyed by its subdomain. -/
def c7companies : List (Str × IbizCompany) := [(pyS ("A1"), c7company)]

/-- The C7 query record: phone `"375291234567"`, everything else absent. -/
def c7query : QueryRecord :=
  { source_id := none, phones := [pyS ("375291234567")], emails := [],
    unp := none, name := none, address := none }

/-- The candidate mapping the collector produces in the C7 scenario. -/
def c7candidates : List (Str × Finset Str) :=
  collect_candidates c7query c7companies
    (build_ibiz_indexes c7companies).1
    (build_ibiz_indexes c7companies).2.1
    (build_ibiz_indexes c7companies).2.2.1
    (build_ibiz_indexes c7companies).2.2.2

/-! ### JSON values and the backfill writer (verify script, lines 350-386) -/

mutual
/-- A parsed JSON value (the shape `json.loads` produces); numbers are
modelled as integers. -/
inductive Json where
  | null
  | bool (b : Bool)
  | num (n : Int)
  | str (s : Str)
  | arr (elems : JsonArr)
  | obj (fields : JsonObj)
/-- A JSON array, as a bespoke list so that recursion stays structural. -/
inductive JsonArr where
  | nil
  | cons (hd : Json) (tl : JsonArr)
/-- A JSON object: key/value pairs in insertion order, unique keys. -/
inductive JsonObj where
  | nil
  | cons (key : Str) (val : Json) (tl : JsonObj)
end

/-- Python truthiness (`bool(x)`) of a JSON value. -/
def jTruthy : Json → Bool
  | Json.null => false
  | Json.bool b => b
  | Json.num n => decide (n ≠ 0)
  | Json.str s => decide (s ≠ [])
  | Json.arr JsonArr.nil => false
  | Json.arr (JsonArr.cons _ _) => true
  | Json.obj JsonObj.nil => false
  | Json.obj (JsonObj.cons _ _ _) => true

/-- Python `x or y`. -/
def pyOr (v dflt : Json) : Json := if jTruthy v then v else dflt

/-- `obj.get(k)`: first binding of `k` (parsed objects have unique keys). -/
def jGet : JsonObj → Str → Option Json
  | JsonObj.nil, _ => none
  | JsonObj.cons k2 v rest, k => if k = k2 then some v else jGet rest k

/-- Whether the object binds key `k`. -/
def jHasKey : JsonObj → Str → Bool
  | JsonObj.nil, _ => false
  | JsonObj.cons k2 _ rest, k => decide (k = k2) || jHasKey rest k

/-- Replace the value bound to `k`, keeping its position. -/
def jReplace : JsonObj → Str → Json → JsonObj
  | JsonObj.nil, _, _ => JsonObj.nil
  | JsonObj.cons k2 v2 rest, k, v =>
    if k = k2 then JsonObj.cons k2 v (jReplace rest k v)
    else JsonObj.cons k2 v2 (jReplace rest k v)

/-- Append a new binding at the end. -/
def jAppendKV : JsonObj → Str → Json → JsonObj
  | JsonObj.nil, k, v => JsonObj.cons k v JsonObj.nil
  | JsonObj.cons k2 v2 rest, k, v => JsonObj.cons k2 v2 (jAppendKV rest k v)

/-- Python `obj[k] = v`: replace in place when the key exists, else append. -/
def jSet (o : JsonObj) (k : Str) (v : Json) : JsonObj :=
  if jHasKey o k then jReplace o k v else jAppendKV o k v

/-- Keys of an object in order. -/
def objKeys : JsonObj → List Str
  | JsonObj.nil => []
  | JsonObj.cons k _ rest => k :: objKeys rest

/-- JSON array to a Lean list. -/
def jarrToList : JsonArr → List Json
  | JsonArr.nil => []
  | JsonArr.cons x tl => x :: jarrToList tl

/-- Lean list to a JSON array. -/
def listToJarr : List Json → JsonArr
  | [] => JsonArr.nil
  | x :: tl => JsonArr.cons x (listToJarr tl)

/-- Decimal rendering of an integer. -/
def intToStr (n : Int) : Str := pyS (toString n)

/-- Escaping of one character inside Python `repr` of a string (the common
escapes; exotic code points are left as-is). -/
def reprEscapeCp (c : Nat) : Str :=
  if c = 92 then [92, 92]
  else if c = 39 then [92, 39]
  else if c = 10 then [92, 110]
  else if c = 13 then [92, 114]
  else if c = 9 then [92, 116]
  else [c]

/-- Body of Python `repr` of a string. -/
def reprEscape (s : Str) : Str := (s.map reprEscapeCp).flatten

mutual
/-- Model of Python `repr()` on JSON-shaped values (single-quoted strings,
`[x, y]` lists, `\x7b'k': v\x7d` dicts), used by `str()` on containers. -/
def pyRepr : Json → Str
  | Json.null => pyS ("None")
  | Json.bool true => pyS ("True")
  | Json.bool false => pyS ("False")
  | Json.num n => intToStr n
  | Json.str s => [39] ++ reprEscape s ++ [39]
  | Json.arr l => [91] ++ pyReprArr l ++ [93]
  | Json.obj o => [123] ++ pyReprObj o ++ [125]
/-- Comma-separated `repr` of array elements. -/
def pyReprArr : JsonArr → Str
  | JsonArr.nil => []
  | JsonArr.cons x JsonArr.nil => pyRepr x
  | JsonArr.cons x (JsonArr.cons y tl) =>
    pyRepr x ++ [44, 32] ++ pyReprArr (JsonArr.cons y tl)
/-- Comma-separated `repr` of object entries. -/
def pyReprObj : JsonObj → Str
  | JsonObj.nil => []
  | JsonObj.cons k v JsonObj.nil => [39] ++ reprEscape k ++ [39, 58, 32] ++ pyRepr v
  | JsonObj.cons k v (JsonObj.cons k2 v2 tl) =>
    [39] ++ reprEscape k ++ [39, 58, 32] ++ pyRepr v ++ [44, 32] ++
      pyReprObj (JsonObj.cons k2 v2 tl)
end

/-- Model of Python `str()` on JSON-shaped values. -/
def pyStr : Json → Str
  | Json.str s => s
  | Json.null => pyS ("None")
  | Json.bool true => pyS ("True")
  | Json.bool false => pyS ("False")
  | Json.num n => intToStr n
  | Json.arr l => pyRepr (Json.arr l)
  | Json.obj o => pyRepr (Json.obj o)

/-- The `str(obj.get(k) or "").strip()` pattern (lines 374 and 434). -/
def sidOf (o : JsonObj) : Str :=
  stripS (pyStr (pyOr ((jGet o (pyS ("source_id"))).getD Json.null) (Json.str [])))

/-- Elements produced by iterating a JSON value in Python: a list yields its
elements, a string its characters, a dict its keys; iterating a number or a
boolean raises `TypeError` (`none`). -/
def jIterElems : Json → Option (List Json)
  | Json.arr l => some (jarrToList l)
  | Json.str s => some (s.map (fun c => Json.str [c]))
  | Json.obj o => some ((objKeys o).map Json.str)
  | Json.null => none
  | Json.bool _ => none
  | Json.num _ => none

/-- The `(raw or "")` step of `normalize_websites` applied to one element:
falsy values become the empty string, strings pass through, and a truthy
non-string raises (`none`) at the subsequent `.strip()`. -/
def jElemAsStr (v : Json) : Option Str :=
  if jTruthy v then
    (match v with
     | Json.str s => some s
     | _ => none)
  else some []

/-- Convert every element, failing if any element would raise. -/
def mapElems : List Json → Option (List Str)
  | [] => some []
  | v :: rest =>
    match jElemAsStr v with
    | none => none
    | some s =>
      match mapElems rest with
      | none => none
      | some ss => some (s :: ss)

/-- The `normalize_websites(obj.get("websites") or [])` step (line 375):
`none` models a raised `TypeError`/`AttributeError`. -/
def websitesOfRow (o : JsonObj) : Option (List Str) :=
  match jIterElems (pyOr ((jGet o (pyS ("websites"))).getD Json.null) (Json.arr JsonArr.nil)) with
  | none => none
  | some elems =>
    match mapElems elems with
    | none => none
    | some strs => some (normalize_websites strs)

/-- Model of the per-row body of `apply_backfill` (lines 374-381).  The
boolean records whether the row was updated (`updated += 1`); `none` models
an uncaught exception. -/
def backfillRow (auto_matches : List (Str × Str)) (ibiz_companies : List (Str × IbizCompany))
    (o : JsonObj) : Option (JsonObj × Bool) :=
  match websitesOfRow o with
  | none => none
  | some current_websites =>
    match alookup auto_matches (sidOf o) with
    | some candidate_subdomain =>
      if current_websites = [] then
        match alookup ibiz_companies candidate_subdomain with
        | some candidate =>
          if candidate.websites ≠ [] then
            some (jSet o (pyS ("websites"))
              (Json.arr (listToJarr (candidate.websites.map Json.str))), true)
          else some (o, false)
        | none => some (o, false)
      else some (o, false)
    | none => some (o, false)

/-- Model of the read/write loop of `apply_backfill` (lines 362-386).  Each
input item is a line: `none` is a blank or unparsable line (skipped), `some
o` a parsed row.  The result is the list of rows written to the temp file
and the `updated` count; `none` models an uncaught exception (the temp file
never replaces the dataset). -/
def apply_backfill (auto_matches : List (Str × Str))
    (ibiz_companies : List (Str × IbizCompany)) :
    List (Option JsonObj) → Option (List JsonObj × Nat)
  | [] => some ([], 0)
  | none :: rest => apply_backfill auto_matches ibiz_companies rest
  | some o :: rest =>
    match backfillRow auto_matches ibiz_companies o with
    | none => none
    | some (o2, b) =>
      match apply_backfill auto_matches ibiz_companies rest with
      | none => none
      | some (os, n) => some (o2 :: os, (if b then 1 else 0) + n)

/-- The concrete row, approved map and secondary table of the C9 witness. -/
def c9row : JsonObj :=
  JsonObj.cons (pyS ("source_id")) (Json.str (pyS ("s")))
    (JsonObj.cons (pyS ("note")) (Json.str (pyS ("keep")))
      (JsonObj.cons (pyS ("websites")) (Json.arr JsonArr.nil) JsonObj.nil))

/-- Approved map of the C9 witness. -/
def c9map : List (Str × Str) := [(pyS ("s"), pyS ("A"))]

/-- Secondary table of the C9 witness. -/
def c9tbl : List (Str × IbizCompany) :=
  [(pyS ("A"),
    { subdomain := pyS ("A"), name := [], address := [], unp := [],
      phones := [], emails := [], websites := [pyS ("https://x.by")] })]

/-- The secondary table of the C5 counterexample: its website list is
non-empty but not normalization-fixed (`mailto:` entries normalize away). -/
def c5tblBad : List (Str × IbizCompany) :=
  [(pyS ("A"),
    { subdomain := pyS ("A"), name := [], address := [], unp := [],
      phones := [], emails := [], websites := [pyS ("mailto:x")] })]

/-- The query row of the C5 counterexample. -/
def c5row : JsonObj :=
  JsonObj.cons (pyS ("source_id")) (Json.str (pyS ("s")))
    (JsonObj.cons (pyS ("websites")) (Json.arr JsonArr.nil) JsonObj.nil)

/-! ### The export rewriter (`scripts/rewrite_company_exports.py`) -/

/-- Model of `build_legacy_token` (lines 14-15): the token is assembled from
two halves in the source. -/
def build_legacy_token : Str := pyS ("i") ++ pyS ("biz")

/-- Model of `build_legacy_tokens` (lines 18-22). -/
def build_legacy_tokens : List Str := [build_legacy_token, pyS ("belarus") ++ pyS ("info")]

/-- Model of `RewriteConfig` (lines 25-29); `company_path_pre` and
`catalog_path_pre` model the source's `company_path_prefix` and
`catalog_path_prefix` fields. -/
structure RewriteConfig where
  site_base_url : Str
  company_path_pre : Str
  catalog_path_pre : Str

/-- Substring test: does `needle` occur inside `hay` (Python `needle in hay`)? -/
def containsTok (needle : Str) : Str → Bool
  | [] => needle.isPrefixOf []
  | c :: rest => needle.isPrefixOf (c :: rest) || containsTok needle rest

/-- Model of `contains_any_legacy_token` (lines 32-34). -/
def contains_any_legacy_token (text : Str) (tokens : List Str) : Bool :=
  tokens.any (fun t => containsTok t (lowerStr text))

/-- One pass of case-insensitive literal substitution
(`re.compile(re.escape(token), re.IGNORECASE).sub(repl, s)`): scan left to
right, replace non-overlapping occurrences, never rescan the replacement.
`fuel` bounds the recursion by the remaining length. -/
def substF (tok repl : Str) : Nat → Str → Str
  | 0, s => s
  | _ + 1, [] => []
  | fuel + 1, c :: rest =>
    if tok ≠ [] ∧ tok.isPrefixOf (lowerStr (c :: rest)) then
      repl ++ substF tok repl fuel (List.drop (tok.length - 1) rest)
    else c :: substF tok repl fuel rest

/-- Case-insensitive substitution of `tok` by `repl` throughout `s`. -/
def substCI (tok repl s : Str) : Str := substF tok repl s.length s

/-- Model of `replace_legacy_tokens` (lines 37-41): substitute each token in
turn by `"biznesinfo"`. -/
def replace_legacy_tokens (text : Str) (tokens : List Str) : Str :=
  tokens.foldl (fun out t => substCI t (pyS ("biznesinfo")) out) text

/-- Modelled fragment of `urllib.parse.urlparse` as `normalize_logo_url`
uses it: for an `http(s)://` URL return the path (from the first `/` after
the authority, cut before `?` or `#`); otherwise the empty string (no
usable scheme/path). -/
def urlPathOf (value : Str) : Str :=
  if (pyS ("http://")).isPrefixOf (lowerStr value) then
    ((value.drop 7).dropWhile (fun c => decide (c ≠ 47 ∧ c ≠ 63 ∧ c ≠ 35))).takeWhile
      (fun c => decide (c ≠ 63 ∧ c ≠ 35))
  else if (pyS ("https://")).isPrefixOf (lowerStr value) then
    ((value.drop 8).dropWhile (fun c => decide (c ≠ 47 ∧ c ≠ 63 ∧ c ≠ 35))).takeWhile
      (fun c => decide (c ≠ 63 ∧ c ≠ 35))
  else []

/-- Model of `normalize_logo_url` (lines 44-64). -/
def normalize_logo_url (raw : Str) (tokens : List Str) : Str :=
  let value := stripS raw
  if value = [] then []
  else if contains_any_legacy_token value tokens = false then value
  else
    let value1 := if urlPathOf value ≠ [] then urlPathOf value else value
    let value2 := stripS ((value1.takeWhile (fun c => decide (c ≠ 63))).takeWhile
      (fun c => decide (c ≠ 35)))
    if contains_any_legacy_token value2 tokens then replace_legacy_tokens value2 tokens
    else value2

mutual
/-- Model of `deep_rewrite` (lines 67-76): substitute legacy tokens in every
string, recursing through arrays and object values. -/
def deep_rewrite (tokens : List Str) : Json → Json
  | Json.str s =>
    if contains_any_legacy_token s tokens then Json.str (replace_legacy_tokens s tokens)
    else Json.str s
  | Json.arr l => Json.arr (deep_rewriteArr tokens l)
  | Json.obj o => Json.obj (deep_rewriteObj tokens o)
  | Json.null => Json.null
  | Json.bool b => Json.bool b
  | Json.num n => Json.num n
/-- `deep_rewrite` over array elements. -/
def deep_rewriteArr (tokens : List Str) : JsonArr → JsonArr
  | JsonArr.nil => JsonArr.nil
  | JsonArr.cons x tl => JsonArr.cons (deep_rewrite tokens x) (deep_rewriteArr tokens tl)
/-- `deep_rewrite` over object values (keys are kept). -/
def deep_rewriteObj (tokens : List Str) : JsonObj → JsonObj
  | JsonObj.nil => JsonObj.nil
  | JsonObj.cons k v tl => JsonObj.cons k (deep_rewrite tokens v) (deep_rewriteObj tokens tl)
end

/-- The websites filter of `rewrite_company` (lines 96-98): keep only the
string entries free of legacy tokens. -/
def filterWebsites (tokens : List Str) : JsonArr → JsonArr
  | JsonArr.nil => JsonArr.nil
  | JsonArr.cons x tl =>
    match x with
    | Json.str s =>
      if contains_any_legacy_token s tokens then filterWebsites tokens tl
      else JsonArr.cons (Json.str s) (filterWebsites tokens tl)
    | _ => filterWebsites tokens tl

/-- The slug/url loop of `rewrite_company` for `categories` and `rubrics`
(lines 100-116; the source repeats the same loop for both keys): set
`url := catalog_path_prefix + "/" + slug` on each dict entry with a
non-empty slug.  `none` models a raised exception on a truthy non-string
slug. -/
def catSlugRewrite (cfg : RewriteConfig) : JsonArr → Option JsonArr
  | JsonArr.nil => some JsonArr.nil
  | JsonArr.cons x tl =>
    match x with
    | Json.obj cat =>
      match jElemAsStr (pyOr ((jGet cat (pyS ("slug"))).getD Json.null) (Json.str [])) with
      | none => none
      | some slugraw =>
        match catSlugRewrite cfg tl with
        | none => none
        | some tl2 =>
          if stripS slugraw ≠ [] then
            some (JsonArr.cons
              (Json.obj (jSet cat (pyS ("url"))
                (Json.str (cfg.catalog_path_pre ++ [47] ++ stripS slugraw)))) tl2)
          else some (JsonArr.cons (Json.obj cat) tl2)
    | other =>
      match catSlugRewrite cfg tl with
      | none => none
      | some tl2 => some (JsonArr.cons other tl2)

/-- Model of `rewrite_company` (lines 79-119); `none` models a raised
exception (`.strip()` on a truthy non-string field). -/
def rewrite_company (cfg : RewriteConfig) (tokens : List Str) (o : JsonObj) :
    Option JsonObj := do
  let sraw ← jElemAsStr (pyOr ((jGet o (pyS ("source"))).getD Json.null) (Json.str []))
  let o1 := if lowerStr (stripS sraw) ∈ tokens then
      jSet o (pyS ("source")) (Json.str (pyS ("biznesinfo")))
    else o
  let idraw ← jElemAsStr (pyOr ((jGet o1 (pyS ("source_id"))).getD Json.null) (Json.str []))
  let o2 := if stripS idraw ≠ [] ∧ contains_any_legacy_token (stripS idraw) tokens then
      jSet o1 (pyS ("source_id")) (Json.str (replace_legacy_tokens (stripS idraw) tokens))
    else o1
  let sid := if stripS idraw ≠ [] ∧ contains_any_legacy_token (stripS idraw) tokens then
      replace_legacy_tokens (stripS idraw) tokens
    else stripS idraw
  let s2raw ← jElemAsStr (pyOr ((jGet o2 (pyS ("source"))).getD Json.null) (Json.str []))
  let o3 ←
    if stripS s2raw = pyS ("biznesinfo") ∧ sid ≠ [] then
      pure (jSet o2 (pyS ("source_url")) (Json.str (cfg.company_path_pre ++ [47] ++ sid)))
    else do
      let surlraw ← jElemAsStr (pyOr ((jGet o2 (pyS ("source_url"))).getD Json.null)
        (Json.str []))
      if contains_any_legacy_token (stripS surlraw) tokens then
        pure (jSet o2 (pyS ("source_url")) (Json.str []))
      else pure o2
  let o4 := jSet o3 (pyS ("logo_url"))
    (Json.str (normalize_logo_url
      (pyStr (pyOr ((jGet o3 (pyS ("logo_url"))).getD Json.null) (Json.str []))) tokens))
  let o5 := match jGet o4 (pyS ("websites")) with
    | some (Json.arr l) => jSet o4 (pyS ("websites")) (Json.arr (filterWebsites tokens l))
    | _ => o4
  let o6 ← match jGet o5 (pyS ("categories")) with
    | some (Json.arr l) => do
      let l2 ← catSlugRewrite cfg l
      pure (jSet o5 (pyS ("categories")) (Json.arr l2))
    | _ => pure o5
  let o7 ← match jGet o6 (pyS ("rubrics")) with
    | some (Json.arr l) => do
      let l2 ← catSlugRewrite cfg l
      pure (jSet o6 (pyS ("rubrics")) (Json.arr l2))
    | _ => pure o6
  pure (deep_rewriteObj tokens o7)

/-- A hexadecimal digit code point (lower case). -/
def hexDigitCp (n : Nat) : Nat := if n < 10 then 48 + n else 87 + n

/-- Escaping of one character by `json.dumps` with `ensure_ascii=False`. -/
def dumpEscapeCp (c : Nat) : Str :=
  if c = 34 then [92, 34]
  else if c = 92 then [92, 92]
  else if c = 10 then [92, 110]
  else if c = 13 then [92, 114]
  else if c = 9 then [92, 116]
  else if c = 8 then [92, 98]
  else if c = 12 then [92, 102]
  else if c < 32 then [92, 117, 48, 48, hexDigitCp (c / 16), hexDigitCp (c % 16)]
  else [c]

/-- A JSON string literal as `json.dumps` writes it. -/
def dumpStr (s : Str) : Str := [34] ++ (s.map dumpEscapeCp).flatten ++ [34]

mutual
/-- Model of `json.dumps(obj, ensure_ascii=False, separators=(",", ":"))`
(line 137). -/
def dumps : Json → Str
  | Json.null => pyS ("null")
  | Json.bool true => pyS ("true")
  | Json.bool false => pyS ("false")
  | Json.num n => intToStr n
  | Json.str s => dumpStr s
  | Json.arr l => [91] ++ dumpsArr l ++ [93]
  | Json.obj o => [123] ++ dumpsObj o ++ [125]
/-- Comma-separated serialization of array elements. -/
def dumpsArr : JsonArr → Str
  | JsonArr.nil => []
  | JsonArr.cons x JsonArr.nil => dumps x
  | JsonArr.cons x (JsonArr.cons y tl) => dumps x ++ [44] ++ dumpsArr (JsonArr.cons y tl)
/-- Comma-separated serialization of object entries. -/
def dumpsObj : JsonObj → Str
  | JsonObj.nil => []
  | JsonObj.cons k v JsonObj.nil => dumpStr k ++ [58] ++ dumps v
  | JsonObj.cons k v (JsonObj.cons k2 v2 tl) =>
    dumpStr k ++ [58] ++ dumps v ++ [44] ++ dumpsObj (JsonObj.cons k2 v2 tl)
end

/-- Model of the per-line body of `rewrite_jsonl_file` (lines 122-144):
rewrite the parsed object when it is a dict, serialize it, and apply the
final guard that re-substitutes legacy tokens in the serialized line. -/
def rewrite_jsonl_line (cfg : RewriteConfig) (tokens : List Str) (obj : Json) :
    Option Str := do
  let obj2 ← match obj with
    | Json.obj o => do
      let o2 ← rewrite_company cfg tokens o
      pure (Json.obj o2)
    | v => pure v
  let line := dumps obj2
  if contains_any_legacy_token line tokens then pure (replace_legacy_tokens line tokens)
  else pure line

/-- The default configuration of `rewrite_company_exports.py` `main`. -/
def c10cfg : RewriteConfig :=
  { site_base_url := pyS ("https://biznesinfo.lucheestiy.com"),
    company_path_pre := pyS ("/company"),
    catalog_path_pre := pyS ("/catalog") }

/-- The failing input row of C10. -/
def c10row : Json :=
  Json.obj (JsonObj.cons (pyS ("name")) (Json.str (pyS ("iiibiz"))) JsonObj.nil)

/-! ### Character-level facts used by the normalization proofs -/

theorem isSpaceCp_lowerCp (n : Nat) : isSpaceCp (lowerCp n) = isSpaceCp n := by
  unfold lowerCp
  split
  · rename_i h
    simp only [isSpaceCp, decide_eq_decide]
    omega
  · rfl

theorem lowerCp_idem (n : Nat) : lowerCp (lowerCp n) = lowerCp n := by
  unfold lowerCp
  split
  · rename_i h
    rw [if_neg (by omega)]
  · rfl

theorem isSpaceCp_comp_lowerCp : (isSpaceCp ∘ lowerCp) = isSpaceCp :=
  funext isSpaceCp_lowerCp

theorem dropWhile_lowerStr (s : Str) :
    (lowerStr s).dropWhile isSpaceCp = lowerStr (s.dropWhile isSpaceCp) := by
  simp only [lowerStr, List.dropWhile_map, isSpaceCp_comp_lowerCp]

theorem rdropWhile_lowerStr (s : Str) :
    (lowerStr s).rdropWhile isSpaceCp = lowerStr (s.rdropWhile isSpaceCp) := by
  simp only [List.rdropWhile, lowerStr, ← List.map_reverse, List.dropWhile_map,
    isSpaceCp_comp_lowerCp]

theorem stripS_lowerStr (s : Str) : stripS (lowerStr s) = lowerStr (stripS s) := by
  unfold stripS
  rw [dropWhile_lowerStr, rdropWhile_lowerStr]

theorem lowerStr_idem (s : Str) : lowerStr (lowerStr s) = lowerStr s := by
  simp only [lowerStr, List.map_map]
  congr 1
  funext n
  exact lowerCp_idem n

/-! ### Facts about `stripS` -/

theorem stripS_head_not (s : Str) (h : 0 < (stripS s).length) :
    isSpaceCp ((stripS s).get ⟨0, h⟩) = false := by
  unfold stripS at *
  have hpre := List.rdropWhile_prefix isSpaceCp (s.dropWhile isSpaceCp)
  have hm : 0 < (s.dropWhile isSpaceCp).length := h.trans_le hpre.length_le
  have hget := List.IsPrefix.getElem hpre (by simpa using h)
  have hnot := List.dropWhile_get_zero_not (p := isSpaceCp) s hm
  rw [List.get_eq_getElem] at hnot ⊢
  rw [hget]
  exact Bool.eq_false_iff.mpr hnot

theorem stripS_last_not (s : Str) (h : stripS s ≠ []) :
    isSpaceCp ((stripS s).getLast h) = false := by
  unfold stripS at *
  exact Bool.eq_false_iff.mpr
    (List.rdropWhile_last_not isSpaceCp (s.dropWhile isSpaceCp) h)

theorem stripS_eq_self (l : Str)
    (hh : ∀ h : 0 < l.length, isSpaceCp (l.get ⟨0, h⟩) = false)
    (hl : ∀ h : l ≠ [], isSpaceCp (l.getLast h) = false) : stripS l = l := by
  have h1 : l.dropWhile isSpaceCp = l := by
    rw [List.dropWhile_eq_self_iff]
    intro hp hcontra
    rw [hh hp] at hcontra
    exact Bool.false_ne_true hcontra
  unfold stripS
  rw [h1]
  rw [List.rdropWhile_eq_self_iff]
  intro hne hcontra
  rw [hl hne] at hcontra
  exact Bool.false_ne_true hcontra

theorem stripS_idem (s : Str) : stripS (stripS s) = stripS s :=
  stripS_eq_self _ (stripS_head_not s) (stripS_last_not s)

/-- C8: the normalizers are total Lean functions, and each maps an absent
(`None`) input to the empty string, as `(value or "")` does in the source. -/
theorem C8_normalizers_total_none :
    normalize_phone none = [] ∧ normalize_email none = [] ∧ normalize_unp none = [] ∧
    norm_space none = [] ∧ norm_text none = [] := by
  refine ⟨rfl, rfl, rfl, rfl, rfl⟩

/-! ### Facts about `isPrefixOf` and the website scheme constants -/

theorem isPrefixOf_cons_ne {a b : Nat} (as bs : List Nat) (h : a ≠ b) :
    (a :: as).isPrefixOf (b :: bs) = false := by
  simp [List.isPrefixOf, h]

theorem isPrefixOf_append_self (l t : List Nat) : l.isPrefixOf (l ++ t) = true := by
  rw [List.isPrefixOf_iff_prefix]
  exact List.prefix_append l t

theorem lowerStr_append (a b : Str) : lowerStr (a ++ b) = lowerStr a ++ lowerStr b :=
  List.map_append lowerCp a b

theorem lowerStr_https : lowerStr (pyS ("https://")) = pyS ("https://") := by decide

theorem pyS_https_cons : pyS ("https://") = 104 :: pyS ("ttps://") := by decide

theorem mailto_not_on_https (t : Str) :
    (pyS ("mailto:")).isPrefixOf (pyS ("https://") ++ t) = false := by
  have h1 : pyS ("mailto:") = 109 :: pyS ("ailto:") := by decide
  rw [h1, pyS_https_cons, List.cons_append]
  exact isPrefixOf_cons_ne _ _ (by decide)

theorem tel_not_on_https (t : Str) :
    (pyS ("tel:")).isPrefixOf (pyS ("https://") ++ t) = false := by
  have h1 : pyS ("tel:") = 116 :: pyS ("el:") := by decide
  rw [h1, pyS_https_cons, List.cons_append]
  exact isPrefixOf_cons_ne _ _ (by decide)

theorem get_zero_append_cons {l : Str} {a : Nat} {r : Str} (hl : l = a :: r) (s : Str)
    (h : 0 < (l ++ s).length) : (l ++ s).get ⟨0, h⟩ = a := by
  subst hl
  rfl

theorem goodSite_https_append (s : Str) (h1 : stripS s = s) (h2 : s ≠ []) :
    goodSite (pyS ("https://") ++ s) := by
  refine ⟨?_, ?_, ?_, ?_⟩
  · rw [pyS_https_cons, List.cons_append]
    exact List.cons_ne_nil _ _
  · apply stripS_eq_self
    · intro h
      rw [get_zero_append_cons pyS_https_cons s h]
      decide
    · intro h
      have hlast : (pyS ("https://") ++ s).getLast h = s.getLast h2 := by
        rw [List.getLast_append' (pyS ("https://")) s h2]
      rw [hlast]
      have hne : stripS s ≠ [] := by rw [h1]; exact h2
      have := stripS_last_not s hne
      simp only [h1] at this
      exact this
  · rw [lowerStr_append, lowerStr_https, mailto_not_on_https, tel_not_on_https]
    rfl
  · rw [lowerStr_append, lowerStr_https, isPrefixOf_append_self]
    exact Bool.or_true _

theorem nwLoop_mem_good (vs : List Str) : ∀ y ∈ nwLoop vs, goodSite y := by
  induction vs with
  | nil => intro y hy; simp [nwLoop] at hy
  | cons raw rest ih =>
    intro y hy
    rw [nwLoop] at hy
    split at hy
    · exact ih y hy
    · split at hy
      · exact ih y hy
      · split at hy
        · rename_i hne hmt hsch
          rcases List.mem_cons.mp hy with rfl | hy2
          · exact ⟨hne, stripS_idem raw, Bool.eq_false_iff.mpr hmt, hsch⟩
          · exact ih y hy2
        · rename_i hne hmt hsch
          rcases List.mem_cons.mp hy with rfl | hy2
          · exact goodSite_https_append (stripS raw) (stripS_idem raw) hne
          · exact ih y hy2

theorem nwLoop_fixed (ys : List Str) (h : ∀ y ∈ ys, goodSite y) : nwLoop ys = ys := by
  induction ys with
  | nil => rfl
  | cons y rest ih =>
    obtain ⟨hne, hstrip, hmt, hsch⟩ := h y (List.mem_cons_self y rest)
    rw [nwLoop, hstrip, if_neg hne]
    rw [if_neg (by rw [hmt]; exact Bool.false_ne_true)]
    rw [if_pos hsch]
    rw [ih (fun z hz => h z (List.mem_cons_of_mem y hz))]

theorem uniqAux_mem (zs : List Str) : ∀ (seen : List Str) (y : Str),
    y ∈ uniqAux seen zs → y ∉ seen ∧ ∃ z ∈ zs, y = stripS z := by
  induction zs with
  | nil => intro seen y hy; simp [uniqAux] at hy
  | cons v rest ih =>
    intro seen y hy
    rw [uniqAux] at hy
    split at hy
    · obtain ⟨h1, z, hz, h2⟩ := ih seen y hy
      exact ⟨h1, z, List.mem_cons_of_mem v hz, h2⟩
    · split at hy
      · obtain ⟨h1, z, hz, h2⟩ := ih seen y hy
        exact ⟨h1, z, List.mem_cons_of_mem v hz, h2⟩
      · rename_i hne hseen
        rcases List.mem_cons.mp hy with rfl | hy2
        · exact ⟨hseen, v, List.mem_cons_self v rest, rfl⟩
        · obtain ⟨h1, z, hz, h2⟩ := ih (stripS v :: seen) y hy2
          exact ⟨fun hc => h1 (List.mem_cons_of_mem _ hc), z, List.mem_cons_of_mem v hz, h2⟩

theorem uniqAux_nodup (zs : List Str) : ∀ seen : List Str, (uniqAux seen zs).Nodup := by
  induction zs with
  | nil => intro seen; simp [uniqAux]
  | cons v rest ih =>
    intro seen
    rw [uniqAux]
    split
    · exact ih seen
    · split
      · exact ih seen
      · refine List.Nodup.cons ?_ (ih (stripS v :: seen))
        intro hc
        exact (uniqAux_mem rest (stripS v :: seen) (stripS v) hc).1 (List.mem_cons_self _ _)

theorem uniqAux_fixed (zs : List Str) : ∀ seen : List Str, zs.Nodup →
    (∀ z ∈ zs, stripS z = z ∧ z ≠ []) → (∀ z ∈ zs, z ∉ seen) →
    uniqAux seen zs = zs := by
  induction zs with
  | nil => intro seen _ _ _; rfl
  | cons v rest ih =>
    intro seen hnd hfix hseen
    obtain ⟨hv, hvne⟩ := hfix v (List.mem_cons_self v rest)
    rw [uniqAux, hv, if_neg hvne, if_neg (hseen v (List.mem_cons_self v rest))]
    congr 1
    apply ih
    · exact hnd.of_cons
    · intro z hz; exact hfix z (List.mem_cons_of_mem v hz)
    · intro z hz
      intro hc
      rcases List.mem_cons.mp hc with rfl | hc2
      · exact (List.Nodup.not_mem hnd) hz
      · exact hseen z (List.mem_cons_of_mem v hz) hc2

theorem normalize_websites_mem_good (xs : List Str) :
    ∀ y ∈ normalize_websites xs, goodSite y := by
  intro y hy
  unfold normalize_websites uniq_keep_order at hy
  obtain ⟨-, z, hz, rfl⟩ := uniqAux_mem (nwLoop xs) [] y hy
  have hg := nwLoop_mem_good xs z hz
  rw [hg.2.1]
  exact hg

/-- C4: `normalize_phone`, `normalize_email` and `normalize_websites` are
idempotent.  (`some` wraps the argument because the functions model the
Python parameter that may also be `None`.) -/
theorem C4_normalization_idempotent :
    (∀ s : Str, normalize_phone (some (normalize_phone (some s))) = normalize_phone (some s)) ∧
    (∀ s : Str, normalize_email (some (normalize_email (some s))) = normalize_email (some s)) ∧
    (∀ xs : List Str, normalize_websites (normalize_websites xs) = normalize_websites xs) := by
  refine ⟨?_, ?_, ?_⟩
  · intro s
    simp only [normalize_phone, Option.getD_some]
    rw [List.filter_filter]
    simp
  · intro s
    simp only [normalize_email, Option.getD_some]
    rw [stripS_lowerStr, stripS_idem, lowerStr_idem]
  · intro xs
    have hgood := normalize_websites_mem_good xs
    have h1 : nwLoop (normalize_websites xs) = normalize_websites xs :=
      nwLoop_fixed _ hgood
    have h2 : uniqAux [] (normalize_websites xs) = normalize_websites xs := by
      apply uniqAux_fixed
      · exact uniqAux_nodup _ _
      · intro z hz
        obtain ⟨hne, hstrip, -, -⟩ := hgood z hz
        exact ⟨hstrip, hne⟩
      · intro z _
        exact List.not_mem_nil z
    show uniq_keep_order (nwLoop (normalize_websites xs)) = normalize_websites xs
    rw [h1]
    exact h2

/-- C1: `decide_match` realises the spec's five-row classification table, in
order: no candidates gives `no_match`; more than one distinct candidate gives
`ambiguous` with no auto candidate; a sole candidate whose evidence meets the
strong tier gives `auto` with that candidate; a sole candidate with evidence
exactly `{name_addr}` and the weak flag enabled gives `auto_weak_name_addr`
with that candidate; any other sole candidate gives `weak_unique` with none. -/
theorem C1_decide_match_table (sid nm ad : Str) (w : Bool)
    (cs : List (Str × Finset Str)) (hnd : (cs.map Prod.fst).Nodup) :
    (cs = [] →
      (decide_match sid nm ad cs w).match_type = pyS ("no_match") ∧
      (decide_match sid nm ad cs w).auto_candidate = none) ∧
    (1 < cs.length →
      (decide_match sid nm ad cs w).match_type = pyS ("ambiguous") ∧
      (decide_match sid nm ad cs w).auto_candidate = none) ∧
    (∀ c ev, cs = [(c, ev)] →
      ((ev ∩ STRONG_EVIDENCE).Nonempty →
        (decide_match sid nm ad cs w).match_type = pyS ("auto") ∧
        (decide_match sid nm ad cs w).auto_candidate = some c) ∧
      (¬(ev ∩ STRONG_EVIDENCE).Nonempty → w = true → ev = {pyS ("name_addr")} →
        (decide_match sid nm ad cs w).match_type = pyS ("auto_weak_name_addr") ∧
        (decide_match sid nm ad cs w).auto_candidate = some c) ∧
      (¬(ev ∩ STRONG_EVIDENCE).Nonempty → ¬(w = true ∧ ev = {pyS ("name_addr")}) →
        (decide_match sid nm ad cs w).match_type = pyS ("weak_unique") ∧
        (decide_match sid nm ad cs w).auto_candidate = none)) := by
  refine ⟨?_, ?_, ?_⟩
  · intro h
    subst h
    exact ⟨rfl, rfl⟩
  · intro h
    have hne : cs ≠ [] := by
      intro hc
      rw [hc] at h
      simp at h
    unfold decide_match
    rw [if_neg hne, if_pos h]
    exact ⟨rfl, rfl⟩
  · intro c ev h
    subst h
    unfold decide_match
    rw [if_neg (by simp), if_neg (by simp)]
    have hfst : (([((c : Str), (ev : Finset Str))].headD ([], (∅ : Finset Str)))).1 = c := rfl
    have hsnd : (([((c : Str), (ev : Finset Str))].headD ([], (∅ : Finset Str)))).2 = ev := rfl
    rw [hfst, hsnd]
    refine ⟨?_, ?_, ?_⟩
    · intro hst
      rw [if_pos hst]
      exact ⟨rfl, rfl⟩
    · intro hnst hw hev
      rw [if_neg hnst, if_pos ⟨hw, hev⟩]
      exact ⟨rfl, rfl⟩
    · intro hnst hnw
      rw [if_neg hnst, if_neg hnw]
      exact ⟨rfl, rfl⟩

/-- C1 witness: the table evaluated on the one-candidate strong-evidence case. -/
theorem C1_decide_match_table_witness :
    ((([(pyS ("a1"), ({pyS ("phone")} : Finset Str))]).map Prod.fst).Nodup) ∧
    ((decide_match [] [] [] [(pyS ("a1"), {pyS ("phone")})] false).match_type = pyS ("auto") ∧
     (decide_match [] [] [] [(pyS ("a1"), {pyS ("phone")})] false).auto_candidate =
       some (pyS ("a1"))) :=
  ⟨by decide,
    ((C1_decide_match_table [] [] [] false [(pyS ("a1"), {pyS ("phone")})]
      (by decide)).2.2 (pyS ("a1")) {pyS ("phone")} rfl).1 (by decide)⟩

/-- C2: a decision carries a non-`None` `auto_candidate` only when exactly one
candidate exists and its evidence meets the trust policy; with more than one
distinct candidate the auto candidate is always `None`. -/
theorem C2_auto_candidate_invariant (sid nm ad : Str) (w : Bool)
    (cs : List (Str × Finset Str)) (hnd : (cs.map Prod.fst).Nodup) :
    ((decide_match sid nm ad cs w).auto_candidate ≠ none →
      ∃ c ev, cs = [(c, ev)] ∧
        (decide_match sid nm ad cs w).auto_candidate = some c ∧
        ((ev ∩ STRONG_EVIDENCE).Nonempty ∨ (w = true ∧ ev = {pyS ("name_addr")}))) ∧
    (1 < cs.length → (decide_match sid nm ad cs w).auto_candidate = none) := by
  rcases cs with _ | ⟨⟨c, ev⟩, rest⟩
  · constructor
    · intro h
      exact absurd rfl h
    · intro h
      simp at h
  · rcases rest with _ | ⟨⟨c2, ev2⟩, rest2⟩
    · constructor
      · intro h
        unfold decide_match at h ⊢
        rw [if_neg (by simp), if_neg (by simp)] at h ⊢
        by_cases h1 : ((([((c : Str), (ev : Finset Str))].headD ([], ∅)).2 ∩
            STRONG_EVIDENCE).Nonempty)
        · rw [if_pos h1] at h ⊢
          exact ⟨c, ev, rfl, rfl, Or.inl h1⟩
        · rw [if_neg h1] at h ⊢
          by_cases h2 : (w = true ∧ ([((c : Str), (ev : Finset Str))].headD ([], ∅)).2 =
              {pyS ("name_addr")})
          · rw [if_pos h2] at h ⊢
            exact ⟨c, ev, rfl, rfl, Or.inr h2⟩
          · rw [if_neg h2] at h
            exact absurd rfl h
      · intro h
        simp at h
    · constructor
      · intro h
        unfold decide_match at h
        rw [if_neg (by simp), if_pos (by simp)] at h
        exact absurd rfl h
      · intro h
        unfold decide_match
        rw [if_neg (by simp), if_pos (by simp)]

/-- C2 witness: the invariant evaluated on a two-candidate (ambiguous) input. -/
theorem C2_auto_candidate_invariant_witness :
    ((([(pyS ("a1"), ({pyS ("phone")} : Finset Str)),
        (pyS ("a2"), ({pyS ("unp")} : Finset Str))]).map Prod.fst).Nodup) ∧
    (decide_match [] [] [] [(pyS ("a1"), {pyS ("phone")}), (pyS ("a2"), {pyS ("unp")})]
      true).auto_candidate = none :=
  ⟨by decide,
    (C2_auto_candidate_invariant [] [] [] true
      [(pyS ("a1"), {pyS ("phone")}), (pyS ("a2"), {pyS ("unp")})] (by decide)).2
      (by simp)⟩

theorem mem_idxAdd (m : Str → List Str) (k v q x : Str) :
    x ∈ idxAdd m k v q ↔ (x ∈ m q ∨ (q = k ∧ x = v)) := by
  by_cases hq : q = k
  · subst hq
    rw [idxAdd, if_pos rfl]
    by_cases hv : v ∈ m q
    · rw [if_pos hv]
      constructor
      · intro hx
        exact Or.inl hx
      · rintro (hx | ⟨-, rfl⟩)
        · exact hx
        · exact hv
    · rw [if_neg hv]
      rw [List.mem_append, List.mem_singleton]
      constructor
      · rintro (h | h)
        · exact Or.inl h
        · exact Or.inr ⟨rfl, h⟩
      · rintro (h | ⟨-, h⟩)
        · exact Or.inl h
        · exact Or.inr h
  · rw [idxAdd, if_neg hq]
    constructor
    · intro h
      exact Or.inl h
    · rintro (h | ⟨hk, -⟩)
      · exact h
      · exact absurd hk hq

theorem mem_build_by_unp_foldl (l : List (Str × IbizCompany)) :
    ∀ (m : Str → List Str) (k x : Str),
    x ∈ (l.foldl (fun m p => if 6 ≤ p.2.unp.length then idxAdd m p.2.unp p.1 else m) m) k ↔
      (x ∈ m k ∨ ∃ c : IbizCompany, (x, c) ∈ l ∧ 6 ≤ c.unp.length ∧ c.unp = k) := by
  induction l with
  | nil => intro m k x; simp
  | cons p rest ih =>
    intro m k x
    rcases p with ⟨s, c⟩
    rw [List.foldl_cons, ih]
    by_cases hc : 6 ≤ c.unp.length
    · rw [if_pos hc]
      rw [mem_idxAdd]
      constructor
      · rintro ((hm | ⟨hk, rfl⟩) | ⟨c2, h2, h3, h4⟩)
        · exact Or.inl hm
        · exact Or.inr ⟨c, List.mem_cons_self _ _, hc, hk.symm⟩
        · exact Or.inr ⟨c2, List.mem_cons_of_mem _ h2, h3, h4⟩
      · rintro (hm | ⟨c2, h2, h3, h4⟩)
        · exact Or.inl (Or.inl hm)
        · rcases List.mem_cons.mp h2 with heq | h2r
          · rw [Prod.mk.injEq] at heq
            obtain ⟨rfl, rfl⟩ := heq
            exact Or.inl (Or.inr ⟨h4.symm, rfl⟩)
          · exact Or.inr ⟨c2, h2r, h3, h4⟩
    · rw [if_neg hc]
      constructor
      · rintro (hm | ⟨c2, h2, h3, h4⟩)
        · exact Or.inl hm
        · exact Or.inr ⟨c2, List.mem_cons_of_mem _ h2, h3, h4⟩
      · rintro (hm | ⟨c2, h2, h3, h4⟩)
        · exact Or.inl hm
        · rcases List.mem_cons.mp h2 with heq | h2r
          · rw [Prod.mk.injEq] at heq
            obtain ⟨rfl, rfl⟩ := heq
            exact absurd h3 hc
          · exact Or.inr ⟨c2, h2r, h3, h4⟩

theorem keys_nodup_eq {β : Type} {l : List (Str × β)} (hnd : (l.map Prod.fst).Nodup)
    {s : Str} {c c2 : β} (h1 : (s, c) ∈ l) (h2 : (s, c2) ∈ l) : c = c2 := by
  induction l with
  | nil => cases h1
  | cons p rest ih =>
    rcases p with ⟨ps, pc⟩
    rw [List.map_cons, List.nodup_cons] at hnd
    rcases List.mem_cons.mp h1 with he1 | ht1
    · rw [Prod.mk.injEq] at he1
      obtain ⟨rfl, rfl⟩ := he1
      rcases List.mem_cons.mp h2 with he2 | ht2
      · rw [Prod.mk.injEq] at he2
        exact he2.2.symm
      · exact absurd (List.mem_map_of_mem Prod.fst ht2) hnd.1
    · rcases List.mem_cons.mp h2 with he2 | ht2
      · rw [Prod.mk.injEq] at he2
        obtain ⟨rfl, rfl⟩ := he2
        exact absurd (List.mem_map_of_mem Prod.fst ht1) hnd.1
      · exact ih hnd.2 ht1 ht2

/-- C3: in the tax-id index built by `build_ibiz_indexes`, a record whose
normalized tax id has fewer than 6 digits appears under no key, and every
indexed identifier belongs to a record with at least 6 tax-id digits.
The hypotheses say that `companies` is shaped like the loader's output:
distinct identifiers and already-normalized `unp` fields. -/
theorem C3_unp_index_min_digits (companies : List (Str × IbizCompany))
    (hnd : (companies.map Prod.fst).Nodup)
    (hfix : ∀ s c, (s, c) ∈ companies → normalize_unp (some c.unp) = c.unp) :
    (∀ s c, (s, c) ∈ companies → (normalize_unp (some c.unp)).length < 6 →
      ∀ k, s ∉ (build_ibiz_indexes companies).2.2.1 k) ∧
    (∀ k s, s ∈ (build_ibiz_indexes companies).2.2.1 k →
      ∃ c, (s, c) ∈ companies ∧ 6 ≤ (normalize_unp (some c.unp)).length) := by
  have hidx : (build_ibiz_indexes companies).2.2.1 = build_by_unp companies := rfl
  rw [hidx]
  constructor
  · intro s c hmem hlen k hin
    rw [build_by_unp, mem_build_by_unp_foldl] at hin
    rcases hin with h | ⟨c2, h2, h3, h4⟩
    · simp [emptyIdx] at h
    · have hcc : c2 = c := keys_nodup_eq hnd h2 hmem
      subst hcc
      rw [hfix s c2 hmem] at hlen
      omega
  · intro k s hin
    rw [build_by_unp, mem_build_by_unp_foldl] at hin
    rcases hin with h | ⟨c2, h2, h3, h4⟩
    · simp [emptyIdx] at h
    · refine ⟨c2, h2, ?_⟩
      rw [hfix s c2 h2]
      exact h3

/-- C3 witness: a record with a 5-digit tax id is not indexed under its own
tax id (or any other evaluated key). -/
theorem C3_unp_index_min_digits_witness :
    (pyS ("A1")) ∉ (build_ibiz_indexes
      [(pyS ("A1"),
        { subdomain := pyS ("A1"), name := [], address := [], unp := pyS ("12345"),
          phones := [], emails := [], websites := [pyS ("https://x.by")] })]).2.2.1
      (pyS ("12345")) :=
  (C3_unp_index_min_digits
    [(pyS ("A1"),
      { subdomain := pyS ("A1"), name := [], address := [], unp := pyS ("12345"),
        phones := [], emails := [], websites := [pyS ("https://x.by")] })]
    (by decide)
    (by
      intro s c h
      rw [List.mem_singleton, Prod.mk.injEq] at h
      obtain ⟨rfl, rfl⟩ := h
      decide)).1
    (pyS ("A1"))
    { subdomain := pyS ("A1"), name := [], address := [], unp := pyS ("12345"),
      phones := [], emails := [], websites := [pyS ("https://x.by")] }
    (by decide) (by decide) (pyS ("12345"))

/-- C6 counterexample: a decision whose `auto_candidate` is set (non-`None`)
but empty does not populate the approved map, because the source tests Python
truthiness, not `is not None`.  The claim as stated would require the map to
send `"q"` to that candidate. -/
theorem C6_counterexample_empty_auto :
    (⟨pyS ("q"), [], [], [], [], pyS ("auto"), some ([] : Str)⟩ :
        MatchDecision).auto_candidate ≠ none ∧
    build_auto_matches
      [⟨pyS ("q"), [], [], [], [], pyS ("auto"), some ([] : Str)⟩] (pyS ("q")) = none := by
  constructor
  · intro h
    cases h
  · rfl

/-- C6 (amended): the approved map is built deterministically with last-write
-wins precedence over the decisions whose `auto_candidate` is truthy (set and
non-empty): each query identifier is mapped to the `auto_candidate` of the
last such decision naming it, and no other identifier is mapped. -/
theorem C6_auto_matches_last_write_wins (ds : List MatchDecision) (q : Str) :
    build_auto_matches ds q =
      ((ds.filter (fun d => decide (q = d.source_id) && optTruthy d.auto_candidate)).getLast?).bind
        (fun d => d.auto_candidate) := by
  induction ds using List.reverseRecOn with
  | nil => rfl
  | append_singleton l d ih =>
    simp only [build_auto_matches] at ih ⊢
    rw [List.foldl_append, List.foldl_cons, List.foldl_nil]
    by_cases ht : optTruthy d.auto_candidate
    · rw [if_pos ht]
      by_cases hq : q = d.source_id
      · rw [if_pos hq]
        rw [List.filter_append]
        have hfd : List.filter
            (fun d => decide (q = d.source_id) && optTruthy d.auto_candidate) [d] = [d] := by
          simp [List.filter, hq, ht]
        rw [hfd, List.getLast?_concat]
        rfl
      · rw [if_neg hq]
        rw [List.filter_append]
        have hfd : List.filter
            (fun d => decide (q = d.source_id) && optTruthy d.auto_candidate) [d] = [] := by
          simp [List.filter, hq]
        rw [hfd, List.append_nil]
        exact ih
    · rw [if_neg ht]
      rw [List.filter_append]
      have hfd : List.filter
          (fun d => decide (q = d.source_id) && optTruthy d.auto_candidate) [d] = [] := by
        simp [List.filter, ht]
      rw [hfd, List.append_nil]
      exact ih

/-- C7: end-to-end scenario.  The collector proposes exactly `A1` with
evidence `{phone}`; `decide_match` classifies it `auto` with auto candidate
`A1` for either value of the weak-match flag; and the websites that backfill
would copy are `["https://example.by"]`. -/
theorem C7_end_to_end_scenario :
    c7candidates = [(pyS ("A1"), {pyS ("phone")})] ∧
    ((decide_match [] [] [] c7candidates false).match_type = pyS ("auto") ∧
     (decide_match [] [] [] c7candidates false).auto_candidate = some (pyS ("A1"))) ∧
    ((decide_match [] [] [] c7candidates true).match_type = pyS ("auto") ∧
     (decide_match [] [] [] c7candidates true).auto_candidate = some (pyS ("A1"))) ∧
    c7company.websites = [pyS ("https://example.by")] := by
  refine ⟨by decide, ⟨by decide, by decide⟩, ⟨by decide, by decide⟩, by decide⟩

/-! ### Lemmas about object update and the backfill row -/

theorem jGet_jReplace_ne : ∀ (o : JsonObj) (k k2 : Str) (v : Json), k2 ≠ k →
    jGet (jReplace o k v) k2 = jGet o k2
  | JsonObj.nil, _, _, _, _ => rfl
  | JsonObj.cons k3 v3 rest, k, k2, v, h => by
    rw [jReplace]
    by_cases hk : k = k3
    · rw [if_pos hk, jGet, jGet]
      by_cases hk2 : k2 = k3
      · exact absurd (hk2.trans hk.symm) h
      · rw [if_neg hk2, if_neg hk2]
        exact jGet_jReplace_ne rest k k2 v h
    · rw [if_neg hk, jGet, jGet]
      by_cases hk2 : k2 = k3
      · rw [if_pos hk2, if_pos hk2]
      · rw [if_neg hk2, if_neg hk2]
        exact jGet_jReplace_ne rest k k2 v h

theorem jGet_jAppendKV_ne : ∀ (o : JsonObj) (k k2 : Str) (v : Json), k2 ≠ k →
    jGet (jAppendKV o k v) k2 = jGet o k2
  | JsonObj.nil, k, k2, v, h => by
    show jGet (JsonObj.cons k v JsonObj.nil) k2 = none
    rw [jGet, if_neg h]
    rfl
  | JsonObj.cons k3 v3 rest, k, k2, v, h => by
    rw [jAppendKV, jGet, jGet]
    by_cases hk2 : k2 = k3
    · rw [if_pos hk2, if_pos hk2]
    · rw [if_neg hk2, if_neg hk2]
      exact jGet_jAppendKV_ne rest k k2 v h

theorem jGet_jSet_ne (o : JsonObj) (k k2 : Str) (v : Json) (h : k2 ≠ k) :
    jGet (jSet o k v) k2 = jGet o k2 := by
  rw [jSet]
  by_cases hh : jHasKey o k = true
  · rw [if_pos hh]
    exact jGet_jReplace_ne o k k2 v h
  · rw [if_neg hh]
    exact jGet_jAppendKV_ne o k k2 v h

theorem jGet_jReplace_same : ∀ (o : JsonObj) (k : Str) (v : Json), jHasKey o k = true →
    jGet (jReplace o k v) k = some v
  | JsonObj.nil, _, _, hh => by cases hh
  | JsonObj.cons k3 v3 rest, k, v, hh => by
    rw [jReplace]
    by_cases hk : k = k3
    · rw [if_pos hk, jGet, if_pos hk]
    · rw [if_neg hk, jGet, if_neg hk]
      apply jGet_jReplace_same rest k v
      rw [jHasKey] at hh
      rcases Bool.or_eq_true_iff.mp hh with h1 | h1
      · exact absurd (of_decide_eq_true h1) hk
      · exact h1

theorem jGet_jAppendKV_same : ∀ (o : JsonObj) (k : Str) (v : Json), jHasKey o k = false →
    jGet (jAppendKV o k v) k = some v
  | JsonObj.nil, k, v, _ => by rw [jAppendKV, jGet, if_pos rfl]
  | JsonObj.cons k3 v3 rest, k, v, hh => by
    rw [jHasKey, Bool.or_eq_false_iff] at hh
    rw [jAppendKV, jGet, if_neg (of_decide_eq_false hh.1)]
    exact jGet_jAppendKV_same rest k v hh.2

theorem jGet_jSet_same (o : JsonObj) (k : Str) (v : Json) : jGet (jSet o k v) k = some v := by
  rw [jSet]
  by_cases hh : jHasKey o k = true
  · rw [if_pos hh]
    exact jGet_jReplace_same o k v hh
  · rw [if_neg hh]
    exact jGet_jAppendKV_same o k v (Bool.eq_false_iff.mpr hh)

theorem sidOf_jSet_websites (o : JsonObj) (v : Json) :
    sidOf (jSet o (pyS ("websites")) v) = sidOf o := by
  unfold sidOf
  rw [jGet_jSet_ne _ _ _ _ (by decide)]

theorem jarrToList_listToJarr : ∀ l : List Json, jarrToList (listToJarr l) = l
  | [] => rfl
  | x :: tl => by rw [listToJarr, jarrToList, jarrToList_listToJarr tl]

theorem jElemAsStr_str (s : Str) : jElemAsStr (Json.str s) = some s := by
  unfold jElemAsStr jTruthy
  by_cases hs : s = []
  · subst hs
    rfl
  · rw [if_pos (by simpa using hs)]

theorem mapElems_map_str : ∀ ws : List Str, mapElems (ws.map Json.str) = some ws
  | [] => rfl
  | s :: tl => by rw [List.map_cons, mapElems, jElemAsStr_str, mapElems_map_str tl]

theorem websitesOfRow_jSet_arr (o : JsonObj) (ws : List Str) (hne : ws ≠ []) :
    websitesOfRow (jSet o (pyS ("websites")) (Json.arr (listToJarr (ws.map Json.str)))) =
      some (normalize_websites ws) := by
  unfold websitesOfRow
  rw [jGet_jSet_same, Option.getD_some]
  rcases ws with _ | ⟨w, ws2⟩
  · exact absurd rfl hne
  · rw [List.map_cons, listToJarr]
    have ht : jTruthy (Json.arr (JsonArr.cons (Json.str w) (listToJarr (ws2.map Json.str)))) =
        true := rfl
    rw [pyOr, if_pos ht]
    have hi : jIterElems (Json.arr (JsonArr.cons (Json.str w) (listToJarr (ws2.map Json.str)))) =
        some (Json.str w :: jarrToList (listToJarr (ws2.map Json.str))) := rfl
    rw [hi, jarrToList_listToJarr]
    have hme : mapElems (Json.str w :: List.map Json.str ws2) = some (w :: ws2) := by
      have h2 := mapElems_map_str (w :: ws2)
      rwa [List.map_cons] at h2
    show (match mapElems (Json.str w :: List.map Json.str ws2) with
      | none => none
      | some strs => some (normalize_websites strs)) = some (normalize_websites (w :: ws2))
    rw [hme]

/-- Case analysis of one `apply_backfill` row: either it is returned
unchanged with `updated` not incremented, or the full update condition held
and the `websites` field was replaced by the candidate's websites. -/
theorem backfillRow_cases (m : List (Str × Str)) (tbl : List (Str × IbizCompany))
    (o o2 : JsonObj) (b : Bool) (h : backfillRow m tbl o = some (o2, b)) :
    (b = false ∧ o2 = o) ∨
    (b = true ∧ ∃ cand c, alookup m (sidOf o) = some cand ∧
      websitesOfRow o = some [] ∧
      alookup tbl cand = some c ∧ c.websites ≠ [] ∧
      o2 = jSet o (pyS ("websites")) (Json.arr (listToJarr (c.websites.map Json.str)))) := by
  unfold backfillRow at h
  split at h
  · cases h
  · rename_i cw hw
    split at h
    · rename_i cand hm
      split at h
      · rename_i hcw
        split at h
        · rename_i c hc
          split at h
          · rename_i hcne
            rw [Option.some.injEq, Prod.mk.injEq] at h
            obtain ⟨h1, h2⟩ := h
            subst h1
            subst h2
            refine Or.inr ⟨rfl, cand, c, hm, ?_, hc, hcne, rfl⟩
            rw [hw, hcw]
          · rw [Option.some.injEq, Prod.mk.injEq] at h
            obtain ⟨h1, h2⟩ := h
            exact Or.inl ⟨h2.symm, h1.symm⟩
        · rw [Option.some.injEq, Prod.mk.injEq] at h
          obtain ⟨h1, h2⟩ := h
          exact Or.inl ⟨h2.symm, h1.symm⟩
      · rw [Option.some.injEq, Prod.mk.injEq] at h
        obtain ⟨h1, h2⟩ := h
        exact Or.inl ⟨h2.symm, h1.symm⟩
    · rw [Option.some.injEq, Prod.mk.injEq] at h
      obtain ⟨h1, h2⟩ := h
      exact Or.inl ⟨h2.symm, h1.symm⟩

/-- A row the writer has already processed is stable: running the row body
again neither changes it nor counts it as updated, provided every secondary
record's website list is a `normalize_websites` fixed point (which the loader
guarantees). -/
theorem backfillRow_fix (m : List (Str × Str)) (tbl : List (Str × IbizCompany))
    (o o2 : JsonObj) (b : Bool)
    (htbl : ∀ sd c, alookup tbl sd = some c → normalize_websites c.websites = c.websites)
    (h : backfillRow m tbl o = some (o2, b)) :
    backfillRow m tbl o2 = some (o2, false) := by
  rcases backfillRow_cases m tbl o o2 b h with ⟨hb, rfl⟩ | ⟨hb, cand, c, hm, hw, hc, hcne, rfl⟩
  · subst hb
    exact h
  · have hrow : websitesOfRow
        (jSet o (pyS ("websites")) (Json.arr (listToJarr (c.websites.map Json.str)))) =
        some c.websites := by
      rw [websitesOfRow_jSet_arr o c.websites hcne, htbl cand c hc]
    unfold backfillRow
    split
    · rename_i heq
      rw [hrow] at heq
      cases heq
    · rename_i cw2 heq
      rw [hrow, Option.some.injEq] at heq
      subst heq
      split
      · rename_i cand2 heq2
        rw [if_neg hcne]
      · rename_i heq2
        rw [sidOf_jSet_websites, hm] at heq2

/-- C9: frame property of the backfill writer.  Any successfully processed
row keeps every field other than `websites` unchanged; it is written back
exactly as read unless its source id is approved, its normalized website
list is empty and the mapped secondary record exists with a non-empty
website list, in which case only `websites` is replaced by that record's
website list. -/
theorem C9_backfill_row_frame (m : List (Str × Str)) (tbl : List (Str × IbizCompany))
    (o o2 : JsonObj) (b : Bool) (h : backfillRow m tbl o = some (o2, b)) :
    (∀ k, k ≠ pyS ("websites") → jGet o2 k = jGet o k) ∧
    (b = false → o2 = o) ∧
    (b = true →
      ∃ cand c, alookup m (sidOf o) = some cand ∧
        websitesOfRow o = some [] ∧
        alookup tbl cand = some c ∧ c.websites ≠ [] ∧
        o2 = jSet o (pyS ("websites")) (Json.arr (listToJarr (c.websites.map Json.str)))) := by
  rcases backfillRow_cases m tbl o o2 b h with ⟨hb, rfl⟩ | ⟨hb, cand, c, hm, hw, hc, hcne, rfl⟩
  · refine ⟨fun k _ => rfl, fun _ => rfl, fun hbt => ?_⟩
    rw [hb] at hbt
    cases hbt
  · subst hb
    refine ⟨?_, ?_, ?_⟩
    · intro k hk
      exact jGet_jSet_ne o (pyS ("websites")) k _ hk
    · intro hbf
      cases hbf
    · intro _
      exact ⟨cand, c, hm, hw, hc, hcne, rfl⟩

/-- C9 witness: the frame property evaluated on a concrete updated row — the
unrelated `note` field survives the websites rewrite. -/
theorem C9_backfill_row_frame_witness :
    backfillRow c9map c9tbl c9row =
      some (jSet c9row (pyS ("websites"))
        (Json.arr (listToJarr ([pyS ("https://x.by")].map Json.str))), true) ∧
    jGet (jSet c9row (pyS ("websites"))
        (Json.arr (listToJarr ([pyS ("https://x.by")].map Json.str)))) (pyS ("note")) =
      jGet c9row (pyS ("note")) :=
  ⟨rfl,
    (C9_backfill_row_frame c9map c9tbl c9row
      (jSet c9row (pyS ("websites"))
        (Json.arr (listToJarr ([pyS ("https://x.by")].map Json.str)))) true rfl).1
      (pyS ("note")) (by decide)⟩

theorem alookup_nil {β : Type} (k : Str) : alookup ([] : List (Str × β)) k = none := rfl

theorem alookup_cons {β : Type} (k2 : Str) (v : β) (rest : List (Str × β)) (k : Str) :
    alookup ((k2, v) :: rest) k = if k = k2 then some v else alookup rest k := rfl

/-- C5 (amended): the backfill writer is idempotent on row contents, and the
second pass updates zero records, provided every secondary record's website
list is a `normalize_websites` fixed point (as `load_ibiz_companies`
guarantees) and the first pass raised no exception. -/
theorem C5_apply_backfill_idempotent (m : List (Str × Str)) (tbl : List (Str × IbizCompany))
    (lines : List (Option JsonObj)) (out : List JsonObj) (n : Nat)
    (htbl : ∀ sd c, alookup tbl sd = some c → normalize_websites c.websites = c.websites)
    (h : apply_backfill m tbl lines = some (out, n)) :
    apply_backfill m tbl (out.map some) = some (out, 0) := by
  induction lines generalizing out n with
  | nil =>
    rw [apply_backfill, Option.some.injEq, Prod.mk.injEq] at h
    obtain ⟨h1, -⟩ := h
    subst h1
    rfl
  | cons line rest ih =>
    cases line with
    | none =>
      rw [apply_backfill] at h
      exact ih out n h
    | some o =>
      cases hrow : backfillRow m tbl o with
      | none =>
        rw [apply_backfill, hrow] at h
        simp at h
      | some pair =>
        rcases pair with ⟨o2, b⟩
        cases hrest : apply_backfill m tbl rest with
        | none =>
          rw [apply_backfill, hrow, hrest] at h
          simp at h
        | some pair2 =>
          rcases pair2 with ⟨os, k⟩
          rw [apply_backfill, hrow, hrest] at h
          simp only [Option.some.injEq, Prod.mk.injEq] at h
          obtain ⟨h1, -⟩ := h
          subst h1
          have hfix := backfillRow_fix m tbl o o2 b htbl hrow
          have hrest2 := ih os k hrest
          rw [List.map_cons, apply_backfill]
          rw [hfix]
          show (match apply_backfill m tbl (os.map some) with
            | none => none
            | some (os2, n2) => some (o2 :: os2, (if false then 1 else 0) + n2)) =
            some (o2 :: os, 0)
          rw [hrest2]
          rfl

/-- First-pass data of the C5 witness: one row with empty websites, an
approved match, and a normalized secondary table. -/
theorem C5_apply_backfill_idempotent_witness :
    apply_backfill c9map c9tbl [some c9row] =
      some ([jSet c9row (pyS ("websites"))
        (Json.arr (listToJarr ([pyS ("https://x.by")].map Json.str)))], 1) ∧
    apply_backfill c9map c9tbl
      ([jSet c9row (pyS ("websites"))
        (Json.arr (listToJarr ([pyS ("https://x.by")].map Json.str)))].map some) =
      some ([jSet c9row (pyS ("websites"))
        (Json.arr (listToJarr ([pyS ("https://x.by")].map Json.str)))], 0) :=
  ⟨rfl,
    C5_apply_backfill_idempotent c9map c9tbl [some c9row]
      [jSet c9row (pyS ("websites"))
        (Json.arr (listToJarr ([pyS ("https://x.by")].map Json.str)))] 1
      (by
        intro sd c hc
        unfold c9tbl at hc
        rw [alookup_cons] at hc
        split at hc
        · rw [Option.some.injEq] at hc
          subst hc
          decide
        · rw [alookup_nil] at hc
          cases hc)
      rfl⟩

/-- C5 counterexample: with an arbitrary (non-normalized) secondary table the
second application of the backfill writer is not a no-op — it again updates
1 record (the claim requires the second application to update zero records).
The written file contents nevertheless agree between the passes. -/
theorem C5_counterexample_second_pass_updates :
    (apply_backfill c9map c5tblBad [some c5row]).map Prod.snd = some 1 ∧
    ((apply_backfill c9map c5tblBad [some c5row]).bind
      (fun p => apply_backfill c9map c5tblBad (p.1.map some))).map Prod.snd = some 1 ∧
    ((apply_backfill c9map c5tblBad [some c5row]).bind
      (fun p => apply_backfill c9map c5tblBad (p.1.map some))).map Prod.fst =
      (apply_backfill c9map c5tblBad [some c5row]).map Prod.fst := by
  refine ⟨rfl, rfl, rfl⟩

/-- C10: the final guard of `rewrite_jsonl_file` does not guarantee a
token-free output line.  On the row with name value made of two letters
`i` followed by the four-letter legacy brand token, substitution inside
`deep_rewrite` creates a fresh token occurrence, the guard's single extra
substitution pass creates yet another one, and the written line still
contains the legacy token. -/
theorem C10_final_guard_leaks_token :
    (rewrite_jsonl_line c10cfg build_legacy_tokens c10row).map
      (fun line => contains_any_legacy_token line build_legacy_tokens) = some true := by
  rfl
